import Mathlib

/-!
Verification of the lending and inventory logic of a library management
system.  The system tracks books, users and issue/return transactions.

The embedding below mirrors the Python sources:
  * `library/models.py`       — `Book`, `User`, `Transaction` records and the
    transaction methods `is_overdue` / `calculate_fine`;
  * `library/data_handler.py` — the persistence provider, modelled as pure
    functions over the three record lists (books, users, transactions);
  * `library/auth.py`         — the authentication / role checks;
  * `library/service.py`      — the lending engine operations `add_book`,
    `remove_book`, `search_books`, `issue_book`, `return_book`.

Modelling conventions:
  * identifiers (Python uuid4 strings) are opaque `Nat` values, fresh ids are
    passed in as explicit arguments where Python generates them;
  * timestamps (`datetime`) are `Int` seconds; Python's
    `(now - due_date).days` is floor division by 86400 seconds
    (`Int.fdiv`), matching `timedelta.days`;
  * monetary fines (Python floats that are exact multiples of 0.50) are `Rat`;
  * the mutable state behind the persistence provider is a `LibState` record
    threaded explicitly; each service operation returns the new state
    together with the Python `(success, message)` pair, where the message
    strings are abstracted into the inductive `Msg` (one constructor per
    distinct message produced by the source).
-/

namespace LibraryMS

/-- `models.py` `Book`: id, title, author, isbn, publisher, year,
`total_copies`, `available_copies` (the constructor sets both copy counts to
`copies`). -/
structure Book where
  id : Nat
  title : String
  author : String
  isbn : String
  publisher : Option String
  year : Option Int
  total_copies : Int
  available_copies : Int
deriving DecidableEq

/-- `models.py` `User`: id, username, hashed password, name, email, role
(one of "member", "librarian", "admin"). -/
structure User where
  id : Nat
  username : String
  password : String
  name : String
  email : Option String
  role : String
deriving DecidableEq

/-- `models.py` `Transaction`: id, book_id, user_id, transaction_type
("issue" or "return"), transaction_date, due_date (set by the constructor
only for type "issue"), return_date (initially none) and fine
(initially 0). -/
structure Transaction where
  id : Nat
  book_id : Nat
  user_id : Nat
  transaction_type : String
  transaction_date : Int
  due_date : Option Int
  return_date : Option Int
  fine : Rat
deriving DecidableEq

/-- `Transaction.__init__`: due date is transaction date plus `days` days for
an issue transaction, none otherwise; return date none; fine 0. -/
def Transaction.mkNew (tid bookId userId : Nat) (transactionType : String)
    (now days : Int) : Transaction :=
  { id := tid
    book_id := bookId
    user_id := userId
    transaction_type := transactionType
    transaction_date := now
    due_date := if transactionType == "issue" then some (now + days * 86400) else none
    return_date := none
    fine := 0 }

/-- `Transaction.is_overdue`: an issue transaction with no return date is
overdue exactly when `now` is past its due date; every other transaction is
not overdue.  (In the source the due date of an issue transaction is always
set, so the `none` branch is unreachable there.) -/
def Transaction.is_overdue (t : Transaction) (now : Int) : Bool :=
  if t.transaction_type == "issue" && t.return_date.isNone then
    match t.due_date with
    | some d => now > d
    | none => false
  else false

/-- Default fine rate: 0.50 currency units per day (`fine_per_day=0.50`). -/
def fine_per_day : Rat := 1 / 2

/-- `Transaction.calculate_fine`: when the transaction is overdue at `now`,
recompute `self.fine` as whole days overdue times the daily rate and return
it; otherwise return the stored fine unchanged.  Returns the (possibly
mutated) transaction together with the returned fine. -/
def Transaction.calculate_fine (t : Transaction) (now : Int) : Transaction × Rat :=
  if t.is_overdue now then
    match t.due_date with
    | some d =>
      let days_overdue : Int := Int.fdiv (now - d) 86400
      let f : Rat := (days_overdue : Rat) * fine_per_day
      ({ t with fine := f }, f)
    | none => (t, t.fine)
  else (t, t.fine)

/-- The persistence provider's backing store: the three record collections of
`data_handler.py`, in insertion order. -/
structure LibState where
  books : List Book
  users : List User
  transactions : List Transaction
deriving DecidableEq

/-- `DataHandler.find_book_by_id`: first book whose id matches. -/
def find_book_by_id (books : List Book) (bookId : Nat) : Option Book :=
  books.find? (fun b => b.id == bookId)

/-- `DataHandler.update_book`: replace the first book with a matching id
(no-op when the id is absent). -/
def update_book (books : List Book) (book : Book) : List Book :=
  match books with
  | [] => []
  | b :: rest => if b.id == book.id then book :: rest else b :: update_book rest book

/-- `DataHandler.delete_book`: remove every book with the given id. -/
def delete_book (books : List Book) (bookId : Nat) : List Book :=
  books.filter (fun b => !(b.id == bookId))

/-- Is `q` a contiguous substring of `s` (Python's `q in s`), on character
lists; `isPrefixL` is the prefix test it iterates. -/
def isPrefixL : List Char → List Char → Bool
  | [], _ => true
  | _ :: _, [] => false
  | a :: as, b :: bs => a == b && isPrefixL as bs

def isSubstrL (q : List Char) : List Char → Bool
  | [] => q.isEmpty
  | c :: rest => isPrefixL q (c :: rest) || isSubstrL q rest

/-- Python `q in s` on strings. -/
def strContains (s q : String) : Bool :=
  isSubstrL q.data s.data

/-- Python `str.lower()`: character-wise lowercasing. -/
def strLower (s : String) : String :=
  ⟨s.data.map Char.toLower⟩

/-- The all-fields match of `DataHandler.search_books` when no field is
given: the lowercased query occurs in the lowercased title, author or isbn. -/
def bookMatchesAny (q : String) (b : Book) : Bool :=
  strContains (strLower b.title) q || strContains (strLower b.author) q ||
    strContains (strLower b.isbn) q

/-- `DataHandler.search_books`: lowercase the query, then filter by
case-insensitive substring containment — over all three fields when `field`
is absent (or empty, Python's falsy check), over the named field when it is
"title", "author" or "isbn", and yielding `[]` for any other field name. -/
def search_books (books : List Book) (query : String) (field : Option String) :
    List Book :=
  let q := strLower query
  match field with
  | none => books.filter (bookMatchesAny q)
  | some f =>
    if f == "" then books.filter (bookMatchesAny q)
    else if f == "title" then books.filter (fun b => strContains (strLower b.title) q)
    else if f == "author" then books.filter (fun b => strContains (strLower b.author) q)
    else if f == "isbn" then books.filter (fun b => strContains (strLower b.isbn) q)
    else []

/-- `DataHandler.get_user_transactions`: all transactions of a user; with
`active_only` only those of type "issue" with no return date. -/
def get_user_transactions (ts : List Transaction) (userId : Nat)
    (activeOnly : Bool) : List Transaction :=
  if activeOnly then
    ts.filter (fun t =>
      t.user_id == userId && t.transaction_type == "issue" && t.return_date.isNone)
  else
    ts.filter (fun t => t.user_id == userId)

/-- `DataHandler.get_book_transactions`: all transactions of a book; with
`active_only` only those of type "issue" with no return date. -/
def get_book_transactions (ts : List Transaction) (bookId : Nat)
    (activeOnly : Bool) : List Transaction :=
  if activeOnly then
    ts.filter (fun t =>
      t.book_id == bookId && t.transaction_type == "issue" && t.return_date.isNone)
  else
    ts.filter (fun t => t.book_id == bookId)

/-- `DataHandler.update_transaction`: replace the first transaction with a
matching id (no-op when the id is absent). -/
def update_transaction (ts : List Transaction) (t : Transaction) :
    List Transaction :=
  match ts with
  | [] => []
  | x :: rest => if x.id == t.id then t :: rest else x :: update_transaction rest t

/-- `Authentication.is_authenticated`: a current user is bound. -/
def is_authenticated (currentUser : Option User) : Bool :=
  currentUser.isSome

/-- `Authentication.is_librarian`: the current user exists and has role
"librarian" or "admin". -/
def is_librarian (currentUser : Option User) : Bool :=
  match currentUser with
  | none => false
  | some u => u.role == "librarian" || u.role == "admin"

/-- The messages produced by the lending engine operations in `service.py`,
one constructor per distinct message string (titles and fines that are
interpolated into the Python strings are carried as arguments). -/
inductive Msg where
  | onlyLibrariansAdd
  | addedCopiesOfExisting (title : String)
  | addedNewBook (title : String)
  | onlyLibrariansRemove
  | bookNotFound
  | bookInUse
  | bookRemoved (title : String)
  | mustLoginToIssue
  | noCopiesAvailable
  | alreadyIssued
  | bookIssued (title : String)
  | mustLoginToReturn
  | notIssuedToUser
  | bookReturnedWithFine (title : String) (fine : Rat)
  | bookReturned (title : String)
deriving DecidableEq

/-- `LibraryService.add_book`: librarian gate, then search the catalog by
isbn; on a hit, add `copies` to the first matched book's copy counts and
update it in place; otherwise append a fresh book (Python draws a uuid,
modelled by the explicit `newId`) with both copy counts equal to `copies`. -/
def add_book (s : LibState) (currentUser : Option User) (newId : Nat)
    (title author isbn : String) (publisher : Option String) (year : Option Int)
    (copies : Int) : LibState × Bool × Msg :=
  if !(is_librarian currentUser) then
    (s, false, Msg.onlyLibrariansAdd)
  else
    match search_books s.books isbn (some "isbn") with
    | book :: _ =>
      let book' := { book with
        total_copies := book.total_copies + copies
        available_copies := book.available_copies + copies }
      ({ s with books := update_book s.books book' }, true,
        Msg.addedCopiesOfExisting book.title)
    | [] =>
      let book : Book :=
        { id := newId, title := title, author := author, isbn := isbn
          publisher := publisher, year := year
          total_copies := copies, available_copies := copies }
      ({ s with books := s.books ++ [book] }, true, Msg.addedNewBook title)

/-- `LibraryService.remove_book`: librarian gate, existence check, then fail
when any active transaction for the book exists; otherwise delete the book. -/
def remove_book (s : LibState) (currentUser : Option User) (bookId : Nat) :
    LibState × Bool × Msg :=
  if !(is_librarian currentUser) then
    (s, false, Msg.onlyLibrariansRemove)
  else
    match find_book_by_id s.books bookId with
    | none => (s, false, Msg.bookNotFound)
    | some book =>
      if !(get_book_transactions s.transactions bookId true).isEmpty then
        (s, false, Msg.bookInUse)
      else
        ({ s with books := delete_book s.books bookId }, true,
          Msg.bookRemoved book.title)

/-- `LibraryService.issue_book`: authentication gate, existence check,
availability check, then reject when the acting user already holds an active
transaction for this book; otherwise append a fresh issue transaction
(Python draws a uuid, modelled by `tid`; `now` is `datetime.now()`) and
decrement the book's available copies. -/
def issue_book (s : LibState) (currentUser : Option User) (tid bookId : Nat)
    (now days : Int) : LibState × Bool × Msg :=
  match currentUser with
  | none => (s, false, Msg.mustLoginToIssue)
  | some user =>
    match find_book_by_id s.books bookId with
    | none => (s, false, Msg.bookNotFound)
    | some book =>
      if book.available_copies ≤ 0 then
        (s, false, Msg.noCopiesAvailable)
      else if (get_user_transactions s.transactions user.id true).any
          (fun t => t.book_id == bookId) then
        (s, false, Msg.alreadyIssued)
      else
        let t := Transaction.mkNew tid bookId user.id "issue" now days
        let book' := { book with available_copies := book.available_copies - 1 }
        ({ s with
            transactions := s.transactions ++ [t]
            books := update_book s.books book' }, true, Msg.bookIssued book.title)

/-- `LibraryService.return_book`: authentication gate, existence check, then
find the acting user's first active transaction for this book; set its
return date to `now`, recompute the fine (`calculate_fine`), persist the
transaction and increment the book's available copies.  The fine is reported
in the message only when positive. -/
def return_book (s : LibState) (currentUser : Option User) (bookId : Nat)
    (now : Int) : LibState × Bool × Msg :=
  match currentUser with
  | none => (s, false, Msg.mustLoginToReturn)
  | some user =>
    match find_book_by_id s.books bookId with
    | none => (s, false, Msg.bookNotFound)
    | some book =>
      match (get_user_transactions s.transactions user.id true).find?
          (fun t => t.book_id == bookId) with
      | none => (s, false, Msg.notIssuedToUser)
      | some t =>
        let t1 := { t with return_date := some now }
        let (t2, fine) := t1.calculate_fine now
        let book' := { book with available_copies := book.available_copies + 1 }
        let s' := { s with
          transactions := update_transaction s.transactions t2
          books := update_book s.books book' }
        if fine > 0 then
          (s', true, Msg.bookReturnedWithFine book.title fine)
        else
          (s', true, Msg.bookReturned book.title)

/-! ### Derived predicates and specification-side definitions -/

/-- The spec's copy-count invariant for a book collection:
`0 ≤ available_copies ≤ total_copies` for every book. -/
def BooksOk (books : List Book) : Prop :=
  ∀ b ∈ books, 0 ≤ b.available_copies ∧ b.available_copies ≤ b.total_copies

instance (books : List Book) : Decidable (BooksOk books) := by
  unfold BooksOk
  infer_instance

/-- Consistency of a store state: every book has a non-negative number of
available copies, and the available copies plus the book's active (issued,
unreturned) transactions never exceed the total copies.  This is the
inductive strengthening of the spec's `0 ≤ available ≤ total` invariant. -/
def Consistent (s : LibState) : Prop :=
  ∀ b ∈ s.books, 0 ≤ b.available_copies ∧
    b.available_copies + ((get_book_transactions s.transactions b.id true).length : Int) ≤
      b.total_copies

instance (s : LibState) : Decidable (Consistent s) := by
  unfold Consistent
  infer_instance

/-- Spec-side substring relation: `q` occurs contiguously in `s`. -/
def IsSubstring (q s : String) : Prop :=
  ∃ l r, s.data = l ++ q.data ++ r

/-- Modelled from the spec: the all-fields search criterion, "case-insensitive
substring match against title, author, or isbn ... match if the substring
appears in ANY of the three fields (OR semantics)". -/
def MatchesAnyFieldSpec (q : String) (b : Book) : Prop :=
  IsSubstring (strLower q) (strLower b.title) ∨
    IsSubstring (strLower q) (strLower b.author) ∨
    IsSubstring (strLower q) (strLower b.isbn)

/-! ### Concrete fixtures used by witnesses and counterexamples -/

def memberU : User :=
  { id := 1, username := "alice", password := "h1", name := "Alice"
    email := none, role := "member" }

def librarianU : User :=
  { id := 2, username := "bob", password := "h2", name := "Bob"
    email := none, role := "librarian" }

/-- A single-copy book whose one copy is currently out on loan. -/
def bookX : Book :=
  { id := 0, title := "X", author := "A", isbn := "111", publisher := none
    year := none, total_copies := 1, available_copies := 0 }

/-- The active loan of `bookX` to `memberU`, due at time 0. -/
def issueT : Transaction := Transaction.mkNew 7 0 1 "issue" 0 0

/-- Store in which `memberU` holds the only copy of `bookX`. -/
def stHeld : LibState :=
  { books := [bookX], users := [memberU, librarianU], transactions := [issueT] }

/-- A two-copy book of which `memberU` holds one copy. -/
def bookY : Book :=
  { id := 0, title := "Y", author := "A", isbn := "222", publisher := none
    year := none, total_copies := 2, available_copies := 1 }

/-- Store in which `memberU` holds one of the two copies of `bookY`. -/
def stHeld2 : LibState :=
  { books := [bookY], users := [memberU, librarianU], transactions := [issueT] }

/-- A fully available single-copy book with isbn "111". -/
def bookZ : Book :=
  { id := 0, title := "Z", author := "Andrew S. Tanenbaum", isbn := "111"
    publisher := none, year := none, total_copies := 1, available_copies := 1 }

/-- Store with one available book and no transactions. -/
def stCatalog : LibState :=
  { books := [bookZ], users := [memberU, librarianU], transactions := [] }

/-- A transaction that has already been returned (return date set). -/
def returnedT : Transaction :=
  { id := 8, book_id := 0, user_id := 1, transaction_type := "issue"
    transaction_date := 0, due_date := some 0, return_date := some 5, fine := 0 }

/-! ### Helper lemmas about the persistence operations -/

theorem mem_update_book {books : List Book} {nb b : Book}
    (h : b ∈ update_book books nb) : b = nb ∨ b ∈ books := by
  induction books with
  | nil => simp [update_book] at h
  | cons x rest ih =>
    simp only [update_book] at h
    split at h
    · rcases List.mem_cons.mp h with h | h
      · exact Or.inl h
      · exact Or.inr (List.mem_cons_of_mem _ h)
    · rcases List.mem_cons.mp h with h | h
      · exact Or.inr (h ▸ List.mem_cons_self _ _)
      · rcases ih h with h | h
        · exact Or.inl h
        · exact Or.inr (List.mem_cons_of_mem _ h)

theorem length_update_book (books : List Book) (nb : Book) :
    (update_book books nb).length = books.length := by
  induction books with
  | nil => rfl
  | cons x rest ih =>
    simp only [update_book]
    split <;> simp [ih]

theorem find_book_by_id_update_book {books : List Book} {bid : Nat} {bk : Book}
    (nb : Book) (hfind : find_book_by_id books bid = some bk) (hid : nb.id = bk.id) :
    find_book_by_id (update_book books nb) bid = some nb := by
  unfold find_book_by_id at hfind ⊢
  have hbkid : bk.id = bid := by
    have := List.find?_some hfind
    simpa using this
  induction books with
  | nil => simp at hfind
  | cons x rest ih =>
    by_cases hx : x.id = bid
    · have hxn : (x.id == nb.id) = true := by simp [hx, hid, hbkid]
      unfold update_book
      rw [if_pos hxn]
      simp [List.find?, hid, hbkid]
    · have hx' : (x.id == bid) = false := by simp [hx]
      have hrest : List.find? (fun b => b.id == bid) rest = some bk := by
        simpa [List.find?, hx'] using hfind
      have hxn : (x.id == nb.id) = false := by simp [hid, hbkid, hx]
      unfold update_book
      rw [if_neg (by simp [hxn])]
      simpa [List.find?, hx'] using ih hrest

theorem find_eq_last_of_none {α} (p : α → Bool) {l : List α} {x : α}
    (hl : ∀ y ∈ l, p y = false) (hx : p x = true) :
    (l ++ [x]).find? p = some x := by
  induction l with
  | nil => simp [List.find?, hx]
  | cons a as ih =>
    have ha : p a = false := hl a (List.mem_cons_self a as)
    simp only [List.cons_append, List.find?, ha]
    exact ih fun y hy => hl y (List.mem_cons_of_mem _ hy)

theorem find_eq_head_filter {α} (p : α → Bool) (l : List α) :
    l.find? p = (l.filter p).head? := by
  induction l with
  | nil => rfl
  | cons a as ih =>
    cases ha : p a with
    | true =>
      rw [List.find?_cons, ha, List.filter_cons_of_pos ha]
      rfl
    | false =>
      rw [List.filter_cons_of_neg (by simp [ha]), List.find?_cons, ha]
      exact ih

theorem search_books_isbn_field (books : List Book) (q : String) :
    search_books books q (some "isbn") =
      books.filter (fun b => strContains (strLower b.isbn) (strLower q)) := rfl

theorem consistent_books_ok {s : LibState} (hs : Consistent s) : BooksOk s.books := by
  intro b hb
  obtain ⟨h1, h2⟩ := hs b hb
  have hn : (0 : Int) ≤ ((get_book_transactions s.transactions b.id true).length : Int) :=
    Int.natCast_nonneg _
  exact ⟨h1, by omega⟩

theorem add_book_books_ok (s : LibState) (currentUser : Option User) (newId : Nat)
    (title author isbn : String) (publisher : Option String) (year : Option Int)
    (copies : Int) (hs : Consistent s) (hcopies : 1 ≤ copies) :
    BooksOk (add_book s currentUser newId title author isbn publisher year copies).1.books := by
  have hok := consistent_books_ok hs
  unfold add_book
  split
  · exact hok
  · split
    · rename_i book rest hsb
      intro b hb
      rcases mem_update_book hb with hb | hb
      · have hmem : book ∈ s.books := by
          have hm : book ∈ search_books s.books isbn (some "isbn") := by
            rw [hsb]; exact List.mem_cons_self _ _
          rw [search_books_isbn_field] at hm
          exact (List.mem_filter.mp hm).1
        obtain ⟨h1, h2⟩ := hok book hmem
        subst hb
        constructor <;> simp <;> omega
      · exact hok b hb
    · intro b hb
      rcases List.mem_append.mp hb with hb | hb
      · exact hok b hb
      · have hb' : b = ⟨newId, title, author, isbn, publisher, year, copies, copies⟩ := by
          simpa using hb
        subst hb'
        exact ⟨by simp; omega, by simp⟩

theorem remove_book_books_ok (s : LibState) (currentUser : Option User) (bookId : Nat)
    (hs : Consistent s) :
    BooksOk (remove_book s currentUser bookId).1.books := by
  have hok := consistent_books_ok hs
  unfold remove_book
  split
  · exact hok
  · split
    · exact hok
    · split
      · exact hok
      · intro b hb
        exact hok b (List.mem_filter.mp hb).1

theorem issue_book_books_ok (s : LibState) (currentUser : Option User) (tid bookId : Nat)
    (now days : Int) (hs : Consistent s) :
    BooksOk (issue_book s currentUser tid bookId now days).1.books := by
  have hok := consistent_books_ok hs
  unfold issue_book
  split
  · exact hok
  · split
    · exact hok
    · rename_i _ book hfind
      split
      · exact hok
      · split
        · exact hok
        · intro b hb
          rcases mem_update_book hb with hb | hb
          · have hmem : book ∈ s.books := List.mem_of_find?_eq_some hfind
            obtain ⟨h1, h2⟩ := hok book hmem
            subst hb
            constructor <;> simp <;> omega
          · exact hok b hb

theorem return_book_books_ok (s : LibState) (currentUser : Option User) (bookId : Nat)
    (now : Int) (hs : Consistent s) :
    BooksOk (return_book s currentUser bookId now).1.books := by
  have hok := consistent_books_ok hs
  unfold return_book
  split
  · exact hok
  · rename_i user
    split
    · exact hok
    · rename_i _ book hfind
      split
      · exact hok
      · rename_i _ t hfound
        have hbid' : book.id = bookId := by
          have h := List.find?_some
            (show List.find? (fun b => b.id == bookId) s.books = some book from hfind)
          simpa using h
        have hbmem : book ∈ s.books := List.mem_of_find?_eq_some
          (show List.find? (fun b => b.id == bookId) s.books = some book from hfind)
        have htmem : t ∈ get_user_transactions s.transactions user.id true :=
          List.mem_of_find?_eq_some hfound
        have htbid := List.find?_some hfound
        have htprop := List.mem_filter.mp htmem
        have htact : t ∈ get_book_transactions s.transactions book.id true := by
          unfold get_book_transactions
          simp only [if_pos rfl]
          refine List.mem_filter.mpr ⟨htprop.1, ?_⟩
          have := htprop.2
          simp only [Bool.and_eq_true] at this ⊢
          exact ⟨⟨by rw [hbid']; exact htbid, this.1.2⟩, this.2⟩
        have hlen : 1 ≤ (get_book_transactions s.transactions book.id true).length :=
          List.length_pos.mpr (List.ne_nil_of_mem htact)
        obtain ⟨h1, h2⟩ := hs book hbmem
        have hlen' : (1 : Int) ≤ ((get_book_transactions s.transactions book.id true).length : Int) := by
          exact_mod_cast hlen
        -- the final state is the same whether or not a fine is reported
        have hgoal : ∀ b ∈ update_book s.books
            { book with available_copies := book.available_copies + 1 },
            0 ≤ b.available_copies ∧ b.available_copies ≤ b.total_copies := by
          intro b hb
          rcases mem_update_book hb with hb | hb
          · subst hb
            constructor <;> simp <;> omega
          · exact hok b hb
        simp only []
        split <;> exact hgoal

/-- C2: starting from a consistent store, after any one of the four lending
engine operations (`add_book` with the caller contract `copies ≥ 1`,
`remove_book`, `issue_book`, `return_book`), every book `b` in the store
satisfies `0 ≤ b.available_copies ≤ b.total_copies`. -/
theorem copy_bounds_after_every_operation (s : LibState) (hs : Consistent s)
    (currentUser : Option User) (newId tid bookId : Nat)
    (title author isbn : String) (publisher : Option String) (year : Option Int)
    (copies : Int) (hcopies : 1 ≤ copies) (now days : Int) :
    BooksOk (add_book s currentUser newId title author isbn publisher year copies).1.books ∧
    BooksOk (remove_book s currentUser bookId).1.books ∧
    BooksOk (issue_book s currentUser tid bookId now days).1.books ∧
    BooksOk (return_book s currentUser bookId now).1.books :=
  ⟨add_book_books_ok s currentUser newId title author isbn publisher year copies hs hcopies,
   remove_book_books_ok s currentUser bookId hs,
   issue_book_books_ok s currentUser tid bookId now days hs,
   return_book_books_ok s currentUser bookId now hs⟩

/-- Witness for C2 at a concrete consistent store (`stHeld`, where one copy
of the single-copy book is out on loan). -/
theorem copy_bounds_after_every_operation_witness :
    BooksOk (add_book stHeld (some librarianU) 9 "T" "A" "333" none none 1).1.books ∧
    BooksOk (remove_book stHeld (some librarianU) 0).1.books ∧
    BooksOk (issue_book stHeld (some librarianU) 9 0 0 14).1.books ∧
    BooksOk (return_book stHeld (some memberU) 0 0).1.books := by
  have h := copy_bounds_after_every_operation stHeld (by decide) (some librarianU)
    9 9 0 "T" "A" "333" none none 1 (by decide) 0 14
  refine ⟨h.1, h.2.1, h.2.2.1, ?_⟩
  exact (copy_bounds_after_every_operation stHeld (by decide) (some memberU)
    9 9 0 "T" "A" "333" none none 1 (by decide) 0 14).2.2.2

theorem add_book_state_or_true (s : LibState) (currentUser : Option User) (newId : Nat)
    (title author isbn : String) (publisher : Option String) (year : Option Int)
    (copies : Int) :
    (add_book s currentUser newId title author isbn publisher year copies).1 = s ∨
      (add_book s currentUser newId title author isbn publisher year copies).2.1 = true := by
  unfold add_book
  split
  · exact Or.inl rfl
  · split
    · exact Or.inr rfl
    · exact Or.inr rfl

theorem remove_book_state_or_true (s : LibState) (currentUser : Option User) (bookId : Nat) :
    (remove_book s currentUser bookId).1 = s ∨
      (remove_book s currentUser bookId).2.1 = true := by
  unfold remove_book
  split
  · exact Or.inl rfl
  · split
    · exact Or.inl rfl
    · split
      · exact Or.inl rfl
      · exact Or.inr rfl

theorem issue_book_state_or_true (s : LibState) (currentUser : Option User) (tid bookId : Nat)
    (now days : Int) :
    (issue_book s currentUser tid bookId now days).1 = s ∨
      (issue_book s currentUser tid bookId now days).2.1 = true := by
  unfold issue_book
  split
  · exact Or.inl rfl
  · split
    · exact Or.inl rfl
    · split
      · exact Or.inl rfl
      · split
        · exact Or.inl rfl
        · exact Or.inr rfl

theorem return_book_state_or_true (s : LibState) (currentUser : Option User) (bookId : Nat)
    (now : Int) :
    (return_book s currentUser bookId now).1 = s ∨
      (return_book s currentUser bookId now).2.1 = true := by
  unfold return_book
  split
  · exact Or.inl rfl
  · split
    · exact Or.inl rfl
    · split
      · exact Or.inl rfl
      · simp only []
        split
        · exact Or.inr rfl
        · exact Or.inr rfl

/-- C10: whenever `add_book`, `remove_book`, `issue_book` or `return_book`
returns a failure outcome (`success = false`), the store (books, users and
transactions) is exactly as it was before the call: every validation check
precedes every write. -/
theorem failed_operations_leave_store_unchanged (s : LibState)
    (currentUser : Option User) (newId tid bookId : Nat)
    (title author isbn : String) (publisher : Option String) (year : Option Int)
    (copies : Int) (now days : Int) :
    ((add_book s currentUser newId title author isbn publisher year copies).2.1 = false →
      (add_book s currentUser newId title author isbn publisher year copies).1 = s) ∧
    ((remove_book s currentUser bookId).2.1 = false →
      (remove_book s currentUser bookId).1 = s) ∧
    ((issue_book s currentUser tid bookId now days).2.1 = false →
      (issue_book s currentUser tid bookId now days).1 = s) ∧
    ((return_book s currentUser bookId now).2.1 = false →
      (return_book s currentUser bookId now).1 = s) :=
  ⟨fun h => (add_book_state_or_true s currentUser newId title author isbn publisher
      year copies).resolve_right (by simp [h]),
   fun h => (remove_book_state_or_true s currentUser bookId).resolve_right (by simp [h]),
   fun h => (issue_book_state_or_true s currentUser tid bookId now days).resolve_right
      (by simp [h]),
   fun h => (return_book_state_or_true s currentUser bookId now).resolve_right
      (by simp [h])⟩

/-- Witness for C10: with no authenticated user, all four operations fail and
leave the concrete store `stHeld` unchanged. -/
theorem failed_operations_leave_store_unchanged_witness :
    (add_book stHeld none 9 "T" "A" "333" none none 1).1 = stHeld ∧
    (remove_book stHeld none 0).1 = stHeld ∧
    (issue_book stHeld none 9 0 0 14).1 = stHeld ∧
    (return_book stHeld none 0 0).1 = stHeld := by
  have h := failed_operations_leave_store_unchanged stHeld none 9 9 0 "T" "A" "333"
    none none 1 0 14
  exact ⟨h.1 (by decide), h.2.1 (by decide), h.2.2.1 (by decide), h.2.2.2 (by decide)⟩

/-- C1: the claim fails on the code.  In the store `stHeld` the member's loan
of book 0 is due at time 0; returning it at time `10 * 86400` (exactly ten
days past the due date) succeeds but reports no fine (message
`bookReturned`, not `bookReturnedWithFine`) and stores fine 0, because
`return_book` sets the return date before calling `calculate_fine`, while
the overdue formula evaluated on the still-active transaction at the same
instant yields 10 × 0.50 = 5.00, the value the claim prescribes. -/
theorem return_ten_days_overdue_reports_no_fine :
    (return_book stHeld (some memberU) 0 (10 * 86400)).2 =
      (true, Msg.bookReturned "X") ∧
    ((return_book stHeld (some memberU) 0 (10 * 86400)).1.transactions.map
      Transaction.fine) = [0] ∧
    (issueT.calculate_fine (10 * 86400)).2 = 5 := by
  refine ⟨by decide, by decide, ?_⟩
  have hfd : Int.fdiv 864000 86400 = 10 := by decide
  unfold issueT Transaction.mkNew Transaction.calculate_fine Transaction.is_overdue
  norm_num [hfd, fine_per_day]

/-- C6: once a transaction's return date is set, `calculate_fine` returns the
stored fine unchanged no matter at which evaluation time it is called, and
never mutates the transaction: the fine is frozen. -/
theorem fine_frozen_once_returned (t : Transaction) (h : t.return_date.isSome = true)
    (now now2 : Int) :
    (t.calculate_fine now).2 = (t.calculate_fine now2).2 ∧
    (t.calculate_fine now).1 = t := by
  rcases ho : t.return_date with _ | v
  · rw [ho] at h
    simp at h
  · have hov : ∀ m : Int, t.is_overdue m = false := by
      intro m
      simp [Transaction.is_overdue, ho]
    unfold Transaction.calculate_fine
    rw [hov now, hov now2]
    simp

/-- Witness for C6 at the concrete returned transaction `returnedT`. -/
theorem fine_frozen_once_returned_witness :
    (returnedT.calculate_fine 0).2 = (returnedT.calculate_fine 999999999).2 ∧
    (returnedT.calculate_fine 0).1 = returnedT :=
  fine_frozen_once_returned returnedT (by decide) 0 999999999

/-- C3: for a librarian (or admin) caller and an existing book, `remove_book`
fails with `BookInUse` exactly when some active transaction for that book
exists — regardless of its available copies — and otherwise succeeds and
deletes the book record. -/
theorem remove_book_bookInUse_iff (s : LibState) (currentUser : Option User)
    (bookId : Nat) (hlib : is_librarian currentUser = true) (book : Book)
    (hfind : find_book_by_id s.books bookId = some book) :
    ((remove_book s currentUser bookId).2 = (false, Msg.bookInUse) ↔
      get_book_transactions s.transactions bookId true ≠ []) ∧
    (get_book_transactions s.transactions bookId true = [] →
      (remove_book s currentUser bookId).2 = (true, Msg.bookRemoved book.title) ∧
      (remove_book s currentUser bookId).1.books = delete_book s.books bookId) := by
  cases hl : get_book_transactions s.transactions bookId true with
  | nil => simp [remove_book, hlib, hfind, hl]
  | cons a as => simp [remove_book, hlib, hfind, hl]

/-- Witness for C3 at the concrete stores `stHeld` (book on loan: removal
rejected with `BookInUse`) discharging the librarian and existence
hypotheses. -/
theorem remove_book_bookInUse_iff_witness :
    ((remove_book stHeld (some librarianU) 0).2 = (false, Msg.bookInUse) ↔
      get_book_transactions stHeld.transactions 0 true ≠ []) ∧
    (get_book_transactions stHeld.transactions 0 true = [] →
      (remove_book stHeld (some librarianU) 0).2 = (true, Msg.bookRemoved bookX.title) ∧
      (remove_book stHeld (some librarianU) 0).1.books = delete_book stHeld.books 0) :=
  remove_book_bookInUse_iff stHeld (some librarianU) 0 (by decide) bookX (by decide)

/-- C8: the authorization gate of `add_book` and `remove_book` passes exactly
for principals whose role is "librarian" or "admin" (admin satisfies the
librarian-level check); any other principal — a member or an unauthenticated
caller — fails with the unauthorized message. -/
theorem librarian_gate_iff (s : LibState) (currentUser : Option User)
    (newId bookId : Nat) (title author isbn : String) (publisher : Option String)
    (year : Option Int) (copies : Int) :
    (is_librarian currentUser = true ↔
      ∃ u, currentUser = some u ∧ (u.role = "librarian" ∨ u.role = "admin")) ∧
    ((add_book s currentUser newId title author isbn publisher year copies).2.2 =
        Msg.onlyLibrariansAdd ↔ is_librarian currentUser = false) ∧
    ((remove_book s currentUser bookId).2.2 = Msg.onlyLibrariansRemove ↔
      is_librarian currentUser = false) := by
  refine ⟨?_, ?_, ?_⟩
  · cases currentUser with
    | none => simp [is_librarian]
    | some u => simp [is_librarian]
  · cases hlib : is_librarian currentUser with
    | false => simp [add_book, hlib]
    | true =>
      cases hsb : search_books s.books isbn (some "isbn") with
      | nil => simp [add_book, hlib, hsb]
      | cons b rest => simp [add_book, hlib, hsb]
  · cases hlib : is_librarian currentUser with
    | false => simp [remove_book, hlib]
    | true =>
      cases hf : find_book_by_id s.books bookId with
      | none => simp [remove_book, hlib, hf]
      | some book =>
        cases hl : get_book_transactions s.transactions bookId true with
        | nil => simp [remove_book, hlib, hf, hl]
        | cons a as => simp [remove_book, hlib, hf, hl]

/-- C4: counterexample.  In `stHeld` the member already holds an active
transaction for book 0 (its only copy), yet a second `issue_book` call by
that member fails with the no-copies message rather than `AlreadyIssued`,
because availability is checked before the already-issued scan. -/
theorem second_issue_not_alreadyIssued :
    ((get_user_transactions stHeld.transactions memberU.id true).any
      (fun t => t.book_id == 0)) = true ∧
    (issue_book stHeld (some memberU) 9 0 0 14).2 = (false, Msg.noCopiesAvailable) ∧
    Msg.noCopiesAvailable ≠ Msg.alreadyIssued := by
  decide

/-- C4 (amended): if the acting user already holds an active transaction for
`bookId`, a second `issue_book` call always fails and leaves the store
unchanged — so a user never holds two simultaneous active transactions for
the same book — and the failure is `AlreadyIssued` whenever the book exists
with a copy available, but `NoCopiesAvailable` when `available_copies ≤ 0`,
since availability is checked first. -/
theorem second_issue_always_rejected (s : LibState) (user : User) (tid bookId : Nat)
    (now days : Int)
    (hheld : ((get_user_transactions s.transactions user.id true).any
      (fun t => t.book_id == bookId)) = true) :
    (issue_book s (some user) tid bookId now days).1 = s ∧
    (issue_book s (some user) tid bookId now days).2.1 = false ∧
    (∀ book, find_book_by_id s.books bookId = some book →
      0 < book.available_copies →
      (issue_book s (some user) tid bookId now days).2 = (false, Msg.alreadyIssued)) := by
  unfold issue_book
  cases hf : find_book_by_id s.books bookId with
  | none => simp [hf]
  | some book =>
    by_cases hav : book.available_copies ≤ 0
    · simp only [hf, if_pos hav]
      refine ⟨trivial, trivial, ?_⟩
      intro book' heq h0
      rw [Option.some_inj] at heq
      subst heq
      exact absurd h0 (by omega)
    · simp [hf, hav, hheld]

/-- Witness for C4 (amended) at the concrete store `stHeld2`: the member
holds one of two copies of book 0 and a copy is still available, so the
second issue is rejected with `AlreadyIssued` and the store is unchanged. -/
theorem second_issue_always_rejected_witness :
    (issue_book stHeld2 (some memberU) 9 0 0 14).1 = stHeld2 ∧
    (issue_book stHeld2 (some memberU) 9 0 0 14).2 = (false, Msg.alreadyIssued) := by
  have h := second_issue_always_rejected stHeld2 memberU 9 0 0 14 (by decide)
  exact ⟨h.1, h.2.2 bookY (by decide) (by decide)⟩

/-- C5: counterexample.  The catalog `stCatalog` holds only `bookZ`, whose
isbn is "111"; no book with isbn "11" exists, so by the claim a new Book
with isbn "11" should be created.  Instead `add_book` with isbn "11" merges
into the existing "111" book (the isbn lookup is a case-insensitive
substring search): its copy counts grow and no record with isbn "11"
appears. -/
theorem add_book_new_isbn_merged_into_substring_match :
    (∀ b ∈ stCatalog.books, b.isbn ≠ "11") ∧
    (add_book stCatalog (some librarianU) 9 "New" "N" "11" none none 1).1.books =
      [{ bookZ with total_copies := 2, available_copies := 2 }] ∧
    (∀ b ∈ (add_book stCatalog (some librarianU) 9 "New" "N" "11" none none 1).1.books,
      b.isbn ≠ "11") := by
  decide

/-- C5 (amended): for a librarian caller, if some catalog book's lowercased
isbn contains the lowercased given isbn as a substring, the first such book
(in catalog order) has its `total_copies` and `available_copies` incremented
by `copies` and no new record is created; only when no book matches in this
substring sense is a new Book with `available_copies = total_copies = copies`
appended. -/
theorem add_book_isbn_merge_semantics (s : LibState) (currentUser : Option User)
    (newId : Nat) (title author isbn : String) (publisher : Option String)
    (year : Option Int) (copies : Int) (hlib : is_librarian currentUser = true) :
    (∀ b0, s.books.find? (fun b => strContains (strLower b.isbn) (strLower isbn)) = some b0 →
      (add_book s currentUser newId title author isbn publisher year copies).1.books =
        update_book s.books { b0 with total_copies := b0.total_copies + copies,
                                      available_copies := b0.available_copies + copies } ∧
      (add_book s currentUser newId title author isbn publisher year copies).1.books.length =
        s.books.length) ∧
    (s.books.find? (fun b => strContains (strLower b.isbn) (strLower isbn)) = none →
      (add_book s currentUser newId title author isbn publisher year copies).1.books =
        s.books ++ [{ id := newId, title := title, author := author, isbn := isbn,
                      publisher := publisher, year := year,
                      total_copies := copies, available_copies := copies }]) := by
  constructor
  · intro b0 hb0
    rw [find_eq_head_filter] at hb0
    cases hfl : s.books.filter (fun b => strContains (strLower b.isbn) (strLower isbn)) with
    | nil =>
      rw [hfl] at hb0
      simp at hb0
    | cons b rest =>
      rw [hfl] at hb0
      simp only [List.head?_cons, Option.some_inj] at hb0
      subst hb0
      have hsb : search_books s.books isbn (some "isbn") = b :: rest := by
        rw [search_books_isbn_field, hfl]
      simp [add_book, hlib, hsb, length_update_book]
  · intro hnone
    rw [find_eq_head_filter] at hnone
    cases hfl : s.books.filter (fun b => strContains (strLower b.isbn) (strLower isbn)) with
    | cons b rest =>
      rw [hfl] at hnone
      simp at hnone
    | nil =>
      have hsb : search_books s.books isbn (some "isbn") = [] := by
        rw [search_books_isbn_field, hfl]
      simp [add_book, hlib, hsb]

/-- Witness for C5 (amended): adding isbn "11" to the catalog whose only book
has isbn "111" increments that book's copy counts and creates no record. -/
theorem add_book_isbn_merge_semantics_witness :
    (add_book stCatalog (some librarianU) 9 "New" "N" "11" none none 1).1.books =
      update_book stCatalog.books
        { bookZ with
          total_copies := bookZ.total_copies + 1
          available_copies := bookZ.available_copies + 1 } ∧
    (add_book stCatalog (some librarianU) 9 "New" "N" "11" none none 1).1.books.length =
      stCatalog.books.length := by
  have h := add_book_isbn_merge_semantics stCatalog (some librarianU) 9 "New" "N" "11"
    none none 1 (by decide)
  exact h.1 bookZ (by decide)

theorem isPrefixL_iff (q s : List Char) :
    isPrefixL q s = true ↔ ∃ r, s = q ++ r := by
  induction q generalizing s with
  | nil => simp [isPrefixL]
  | cons a as ih =>
    cases s with
    | nil => simp [isPrefixL]
    | cons b bs =>
      simp only [isPrefixL, Bool.and_eq_true, beq_iff_eq, ih]
      constructor
      · rintro ⟨rfl, r, rfl⟩
        exact ⟨r, rfl⟩
      · rintro ⟨r, hr⟩
        rw [List.cons_append] at hr
        injection hr with h1 h2
        exact ⟨h1.symm, r, h2⟩

theorem isSubstrL_iff (q s : List Char) :
    isSubstrL q s = true ↔ ∃ l r, s = l ++ q ++ r := by
  induction s with
  | nil =>
    constructor
    · intro h
      have hq : q = [] := by simpa [isSubstrL] using h
      exact ⟨[], [], by simp [hq]⟩
    · rintro ⟨l, r, hr⟩
      rw [List.append_assoc] at hr
      have h0 := hr.symm
      rw [List.append_eq_nil] at h0
      have h1 := h0.2
      rw [List.append_eq_nil] at h1
      simp [isSubstrL, h1.1]
  | cons c rest ih =>
    simp only [isSubstrL, Bool.or_eq_true, ih, isPrefixL_iff]
    constructor
    · rintro (⟨r, hr⟩ | ⟨l, r, hr⟩)
      · exact ⟨[], r, by simpa using hr⟩
      · exact ⟨c :: l, r, by simp [hr]⟩
    · rintro ⟨l, r, hr⟩
      cases l with
      | nil => exact Or.inl ⟨r, by simpa using hr⟩
      | cons x xs =>
        rw [List.cons_append, List.cons_append] at hr
        injection hr with h1 h2
        subst h1
        exact Or.inr ⟨xs, r, by simpa using h2⟩

/-- The Boolean substring test of the embedding agrees with the spec-side
existential characterisation of substring containment. -/
theorem strContains_iff (s q : String) :
    strContains s q = true ↔ IsSubstring q s := by
  unfold strContains IsSubstring
  exact isSubstrL_iff q.data s.data

/-- C9: a no-field search returns exactly the books whose lowercased title,
author or isbn contains the lowercased query as a substring (OR over the
three fields); in particular searching "tanenbaum" finds the book whose
author is "Andrew S. Tanenbaum". -/
theorem search_no_field_matches_any_field (books : List Book) (query : String)
    (b : Book) :
    (b ∈ search_books books query none ↔ b ∈ books ∧ MatchesAnyFieldSpec query b) ∧
    bookZ ∈ search_books [bookZ] "tanenbaum" none := by
  constructor
  · unfold search_books
    simp only []
    rw [List.mem_filter]
    unfold bookMatchesAny MatchesAnyFieldSpec
    simp [Bool.or_eq_true, strContains_iff, or_assoc]
  · decide

/-- C7: for a book with an available copy and an authenticated user not
already holding it, a successful `issue_book` immediately followed by
`return_book` of the same book by the same user succeeds and restores the
book record — in particular its `available_copies` — to its value before
the issue. -/
theorem issue_then_return_restores_availability (s : LibState) (user : User)
    (tid bookId : Nat) (now now2 days : Int) (book : Book)
    (hfind : find_book_by_id s.books bookId = some book)
    (havail : 0 < book.available_copies)
    (hnothold : ((get_user_transactions s.transactions user.id true).any
      (fun t => t.book_id == bookId)) = false) :
    (issue_book s (some user) tid bookId now days).2.1 = true ∧
    (return_book (issue_book s (some user) tid bookId now days).1
      (some user) bookId now2).2.1 = true ∧
    find_book_by_id (return_book (issue_book s (some user) tid bookId now days).1
      (some user) bookId now2).1.books bookId = some book := by
  have hav' : ¬ book.available_copies ≤ 0 := by omega
  have hissue : issue_book s (some user) tid bookId now days =
      ({ s with
          transactions := s.transactions ++
            [Transaction.mkNew tid bookId user.id "issue" now days]
          books := update_book s.books
            { book with available_copies := book.available_copies - 1 } },
        true, Msg.bookIssued book.title) := by
    unfold issue_book
    rw [hfind]
    simp only []
    rw [if_neg hav', hnothold]
    simp
  rw [hissue]
  refine ⟨rfl, ?_⟩
  have hfind1 : find_book_by_id
      (update_book s.books { book with available_copies := book.available_copies - 1 })
      bookId = some { book with available_copies := book.available_copies - 1 } :=
    find_book_by_id_update_book _ hfind rfl
  have hfilter : get_user_transactions
      (s.transactions ++ [Transaction.mkNew tid bookId user.id "issue" now days])
      user.id true =
      get_user_transactions s.transactions user.id true ++
        [Transaction.mkNew tid bookId user.id "issue" now days] := by
    unfold get_user_transactions
    simp [List.filter_append, Transaction.mkNew]
  have hnone : ∀ y ∈ get_user_transactions s.transactions user.id true,
      (y.book_id == bookId) = false := by
    intro y hy
    have h := List.any_eq_false.mp hnothold y hy
    simpa using h
  have hfound : (get_user_transactions
      (s.transactions ++ [Transaction.mkNew tid bookId user.id "issue" now days])
      user.id true).find? (fun t => t.book_id == bookId) =
      some (Transaction.mkNew tid bookId user.id "issue" now days) := by
    rw [hfilter]
    exact find_eq_last_of_none _ hnone (by simp [Transaction.mkNew])
  unfold return_book
  simp only []
  rw [hfind1, hfound]
  simp only [Transaction.calculate_fine, Transaction.is_overdue, Transaction.mkNew]
  simp
  exact find_book_by_id_update_book _ hfind1 rfl

/-- Witness for C7 at the concrete store `stCatalog`: the member borrows the
available copy of `bookZ` at time 0 and returns it at time 5, after which
the book record is exactly `bookZ` again. -/
theorem issue_then_return_restores_availability_witness :
    (issue_book stCatalog (some memberU) 9 0 0 14).2.1 = true ∧
    (return_book (issue_book stCatalog (some memberU) 9 0 0 14).1
      (some memberU) 0 5).2.1 = true ∧
    find_book_by_id (return_book (issue_book stCatalog (some memberU) 9 0 0 14).1
      (some memberU) 0 5).1.books 0 = some bookZ :=
  issue_then_return_restores_availability stCatalog memberU 9 0 0 5 14 bookZ
    (by decide) (by decide) (by decide)

end LibraryMS
